import Mathlib

/-!
Verification of the OpenMP task-dependency pipeline demos
(`omp_tasks_pipeline_overlap.c`, `omp_tasks_pipeline_gantt.c`).

The C sources are shallowly embedded: pure helper functions become Lean
functions on `ℤ`/`ℚ` (C `double` arithmetic is modelled by exact rational
arithmetic; the claims proved here concern guards, clamping, comparison
and index arithmetic, which the rationals model faithfully), the CLI
front end becomes an `Except`-valued function, and the allocation /
pipeline phase of `main` becomes a function of an allocation oracle.
-/

/-- One recorded trace entry, mirroring `event_t` in both pipeline files:
`{int item; char stage; int tid; double t_start; double t_end;}`. -/
structure event_t where
  item : ℤ
  stage : Char
  tid : ℤ
  t_start : ℚ
  t_end : ℚ
deriving DecidableEq, Repr

/-- `stage_index` from the sources: `(s == 'A') ? 0 : (s == 'B') ? 1 : 2`. -/
def stage_index (s : Char) : ℤ :=
  if s = 'A' then 0 else if s = 'B' then 1 else 2

/-- Truncation toward zero, the behaviour of the C cast `(int)x` applied to a
`double` value (the operand always fits in `int` where the cast occurs). -/
def ctrunc (q : ℚ) : ℤ :=
  if 0 ≤ q then ⌊q⌋ else -⌊-q⌋

/-- `time_to_col` from `omp_tasks_pipeline_gantt.c`: maps a time in `[0, T]`
to a column in `[0, width-1]`, returning 0 immediately when `total ≤ 0`. -/
def time_to_col (t total : ℚ) (width : ℤ) : ℤ :=
  if total ≤ 0 then 0
  else
    let x0 := t / total
    let x1 := if x0 < 0 then 0 else x0
    let x2 := if 1 < x1 then 1 else x1
    let col0 := ctrunc (x2 * ((width : ℚ) - 1))
    let col1 := if col0 < 0 then 0 else col0
    if width ≤ col1 then width - 1 else col1

/-- For `width ≥ 1` the final two clamps confine the result to
`[0, width-1]` whatever the intermediate value was. -/
lemma time_to_col_bounds (t total : ℚ) (width : ℤ) (hw : 1 ≤ width) :
    0 ≤ time_to_col t total width ∧ time_to_col t total width ≤ width - 1 := by
  unfold time_to_col
  split
  · omega
  · dsimp only
    split <;> split <;> omega

lemma time_to_col_of_nonpos (t total : ℚ) (width : ℤ) (h : total ≤ 0) :
    time_to_col t total width = 0 := by
  unfold time_to_col
  simp [h]

lemma ctrunc_of_nonneg (q : ℚ) (h : 0 ≤ q) : ctrunc q = ⌊q⌋ := by
  unfold ctrunc
  simp [h]

/-- For a positive `total` and `width ≥ 1`, `time_to_col` is monotone in `t`. -/
lemma time_to_col_mono (total : ℚ) (width : ℤ) (t t' : ℚ)
    (htot : 0 < total) (hw : 1 ≤ width) (ht : t ≤ t') :
    time_to_col t total width ≤ time_to_col t' total width := by
  unfold time_to_col
  rw [if_neg (not_le.mpr htot), if_neg (not_le.mpr htot)]
  dsimp only
  set x0 := t / total with hx0
  set y0 := t' / total with hy0
  have hxy : x0 ≤ y0 := by rw [hx0, hy0]; gcongr
  -- clamp below at 0
  set x1 := if x0 < 0 then (0 : ℚ) else x0 with hx1
  set y1 := if y0 < 0 then (0 : ℚ) else y0 with hy1
  have hxy1 : x1 ≤ y1 := by
    rw [hx1, hy1]; split <;> split <;> first | rfl | linarith
  have hx1nn : 0 ≤ x1 := by rw [hx1]; split <;> linarith
  have hy1nn : 0 ≤ y1 := by rw [hy1]; split <;> linarith
  -- clamp above at 1
  set x2 := if 1 < x1 then (1 : ℚ) else x1 with hx2
  set y2 := if 1 < y1 then (1 : ℚ) else y1 with hy2
  have hxy2 : x2 ≤ y2 := by
    rw [hx2, hy2]; split <;> split <;> first | rfl | linarith
  have hx2nn : 0 ≤ x2 := by rw [hx2]; split <;> linarith
  have hy2nn : 0 ≤ y2 := by rw [hy2]; split <;> linarith
  -- truncation is monotone on the nonnegative products
  have hwq : (0 : ℚ) ≤ (width : ℚ) - 1 := by
    have : (1 : ℚ) ≤ (width : ℚ) := by exact_mod_cast hw
    linarith
  have hmul : x2 * ((width : ℚ) - 1) ≤ y2 * ((width : ℚ) - 1) :=
    mul_le_mul_of_nonneg_right hxy2 hwq
  have hxm : 0 ≤ x2 * ((width : ℚ) - 1) := mul_nonneg hx2nn hwq
  have hym : 0 ≤ y2 * ((width : ℚ) - 1) := mul_nonneg hy2nn hwq
  have hcol : ctrunc (x2 * ((width : ℚ) - 1)) ≤ ctrunc (y2 * ((width : ℚ) - 1)) := by
    rw [ctrunc_of_nonneg _ hxm, ctrunc_of_nonneg _ hym]
    exact Int.floor_le_floor hmul
  set cx := ctrunc (x2 * ((width : ℚ) - 1)) with hcx
  set cy := ctrunc (y2 * ((width : ℚ) - 1)) with hcy
  split_ifs <;> omega

/-- Start column computed by `draw_event`: `c0 = time_to_col(e->t_start, total, width)`. -/
def draw_c0 (e : event_t) (total : ℚ) (width : ℤ) : ℤ :=
  time_to_col e.t_start total width

/-- End column computed by `draw_event`: `c1 = time_to_col(e->t_end, total, width)`. -/
def draw_c1 (e : event_t) (total : ℚ) (width : ℤ) : ℤ :=
  time_to_col e.t_end total width

/-- The lower column after the defensive swap `if (c1 < c0) { swap }`. -/
def draw_lo (e : event_t) (total : ℚ) (width : ℤ) : ℤ :=
  if draw_c1 e total width < draw_c0 e total width
  then draw_c1 e total width else draw_c0 e total width

/-- The upper column after the defensive swap. -/
def draw_hi (e : event_t) (total : ℚ) (width : ℤ) : ℤ :=
  if draw_c1 e total width < draw_c0 e total width
  then draw_c0 e total width else draw_c1 e total width

/-- Columns painted with the stage character: the single cell `c0` when
`c0 == c1`, otherwise the loop `for (c = c0; c <= c1 && c < width; ++c)`. -/
def paint_cols (e : event_t) (total : ℚ) (width : ℤ) : List ℤ :=
  let lo := draw_lo e total width
  let hi := draw_hi e total width
  if lo = hi then [lo]
  else (List.range ((min hi (width - 1)) - lo + 1).toNat).map (fun n : ℕ => lo + (n : ℤ))

/-- The digit cells written by the best-effort item annotation (taken only
when the guard `0 ≤ item ≤ 99` held). -/
def digit_writes (lo item : ℤ) : List (ℤ × Char) :=
  if 10 ≤ item then
    [(lo + 1, Char.ofNat (48 + (item / 10).toNat)),
     (lo + 2, Char.ofNat (48 + (item % 10).toNat))]
  else [(lo + 1, Char.ofNat (48 + item.toNat))]

/-- The annotation block of `draw_event`: executed only in the multi-column
case, guarded by `c0 + 2 < width` and `0 ≤ item ≤ 99`; rewrites the stage
character at `c0` and overlays one or two item-id digits after it. -/
def annot_writes (e : event_t) (lo width : ℤ) : List (ℤ × Char) :=
  if lo + 2 < width then
    if 0 ≤ e.item ∧ e.item ≤ 99 then (lo, e.stage) :: digit_writes lo e.item
    else []
  else []

/-- The complete ordered sequence of `(column, character)` stores that
`draw_event` performs on the row buffer. -/
def draw_writes (e : event_t) (total : ℚ) (width : ℤ) : List (ℤ × Char) :=
  (paint_cols e total width).map (fun c => (c, e.stage)) ++
    (if draw_lo e total width = draw_hi e total width then []
     else annot_writes e (draw_lo e total width) width)

/-- Applying the writes to a row buffer (out-of-range stores cannot occur;
this is proved below, not assumed). -/
def apply_writes (row : List Char) (ws : List (ℤ × Char)) : List Char :=
  ws.foldl (fun r w => r.set w.1.toNat w.2) row

lemma draw_lo_eq_min (e : event_t) (total : ℚ) (width : ℤ) :
    draw_lo e total width = min (draw_c0 e total width) (draw_c1 e total width) := by
  unfold draw_lo
  split <;> omega

lemma draw_hi_eq_max (e : event_t) (total : ℚ) (width : ℤ) :
    draw_hi e total width = max (draw_c0 e total width) (draw_c1 e total width) := by
  unfold draw_hi
  split <;> omega

lemma draw_lo_le_hi (e : event_t) (total : ℚ) (width : ℤ) :
    draw_lo e total width ≤ draw_hi e total width := by
  rw [draw_lo_eq_min, draw_hi_eq_max]; omega

lemma draw_bounds (e : event_t) (total : ℚ) (width : ℤ) (hw : 1 ≤ width) :
    0 ≤ draw_lo e total width ∧ draw_hi e total width ≤ width - 1 := by
  have h0 := time_to_col_bounds e.t_start total width hw
  have h1 := time_to_col_bounds e.t_end total width hw
  rw [draw_lo_eq_min, draw_hi_eq_max]
  unfold draw_c0 draw_c1
  omega

lemma mem_range_shift (lo m c : ℤ) :
    (c ∈ (List.range (m - lo + 1).toNat).map (fun n : ℕ => lo + (n : ℤ))) ↔
      (lo ≤ c ∧ c ≤ m) := by
  constructor
  · intro h
    rcases List.mem_map.mp h with ⟨n, hn, rfl⟩
    rw [List.mem_range] at hn
    omega
  · intro hc
    refine List.mem_map.mpr ⟨(c - lo).toNat, List.mem_range.mpr ?_, ?_⟩ <;> omega

/-- Membership in the painted column list is exactly the closed interval
`[lo, hi]` once `hi ≤ width - 1`. -/
lemma paint_cols_mem (e : event_t) (total : ℚ) (width : ℤ) (hw : 1 ≤ width) (c : ℤ) :
    c ∈ paint_cols e total width ↔
      draw_lo e total width ≤ c ∧ c ≤ draw_hi e total width := by
  have hlh := draw_lo_le_hi e total width
  have hb := draw_bounds e total width hw
  unfold paint_cols
  dsimp only
  split
  · rename_i heq
    simp only [List.mem_singleton]
    omega
  · rename_i hne
    have hmin : min (draw_hi e total width) (width - 1) = draw_hi e total width :=
      min_eq_left (by omega)
    rw [hmin, mem_range_shift]

/-- `cmp_event` from `omp_tasks_pipeline_overlap.c`: compare by start time,
then by item, then by stage index. -/
def cmp_event (a b : event_t) : ℤ :=
  if a.t_start < b.t_start then -1
  else if b.t_start < a.t_start then 1
  else if a.item < b.item then -1
  else if b.item < a.item then 1
  else if stage_index a.stage < stage_index b.stage then -1
  else if stage_index b.stage < stage_index a.stage then 1
  else 0

/-- `cmp_event_start` from `omp_tasks_pipeline_gantt.c`: compare by start
time, then by thread id, then by item, then by stage index. -/
def cmp_event_start (a b : event_t) : ℤ :=
  if a.t_start < b.t_start then -1
  else if b.t_start < a.t_start then 1
  else if a.tid < b.tid then -1
  else if b.tid < a.tid then 1
  else if a.item < b.item then -1
  else if b.item < a.item then 1
  else if stage_index a.stage < stage_index b.stage then -1
  else if stage_index b.stage < stage_index a.stage then 1
  else 0

/-- Modelled from the spec: the display key the spec prescribes for the
sorted event list, `(startOffset, item, stageIndex)` ascending,
lexicographically. -/
def specKeyLt (a b : event_t) : Prop :=
  a.t_start < b.t_start ∨
    (a.t_start = b.t_start ∧
      (a.item < b.item ∨
        (a.item = b.item ∧ stage_index a.stage < stage_index b.stage)))

instance (a b : event_t) : Decidable (specKeyLt a b) := by
  unfold specKeyLt; infer_instance

/-- The key actually implemented by the gantt variant's comparator:
`(startOffset, tid, item, stageIndex)` ascending, lexicographically. -/
def ganttKeyLt (a b : event_t) : Prop :=
  a.t_start < b.t_start ∨
    (a.t_start = b.t_start ∧
      (a.tid < b.tid ∨
        (a.tid = b.tid ∧
          (a.item < b.item ∨
            (a.item = b.item ∧ stage_index a.stage < stage_index b.stage)))))

instance (a b : event_t) : Decidable (ganttKeyLt a b) := by
  unfold ganttKeyLt; infer_instance

lemma cmp_event_neg_iff (a b : event_t) :
    cmp_event a b = -1 ↔ specKeyLt a b := by
  unfold cmp_event specKeyLt
  split_ifs with h1 h2 h3 h4 h5 h6 <;>
    constructor <;>
    first
      | (intro hL
         first
           | exact Or.inl h1
           | exact Or.inr ⟨le_antisymm (not_lt.mp h2) (not_lt.mp h1), Or.inl h3⟩
           | exact Or.inr ⟨le_antisymm (not_lt.mp h2) (not_lt.mp h1),
               Or.inr ⟨by omega, h5⟩⟩
           | exact absurd hL (by decide))
      | (rintro (hs | ⟨hseq, hi | ⟨hieq, hst⟩⟩) <;> first | rfl | linarith | omega)

lemma cmp_event_pos_iff (a b : event_t) :
    cmp_event a b = 1 ↔ specKeyLt b a := by
  unfold cmp_event specKeyLt
  split_ifs with h1 h2 h3 h4 h5 h6 <;>
    constructor <;>
    first
      | (intro hL
         first
           | exact Or.inl h2
           | exact Or.inr ⟨le_antisymm (not_lt.mp h1) (not_lt.mp h2), Or.inl h4⟩
           | exact Or.inr ⟨le_antisymm (not_lt.mp h1) (not_lt.mp h2),
               Or.inr ⟨by omega, h6⟩⟩
           | exact absurd hL (by decide))
      | (rintro (hs | ⟨hseq, hi | ⟨hieq, hst⟩⟩) <;> first | rfl | linarith | omega)

lemma cmp_event_zero_iff (a b : event_t) :
    cmp_event a b = 0 ↔
      a.t_start = b.t_start ∧ a.item = b.item ∧
        stage_index a.stage = stage_index b.stage := by
  unfold cmp_event
  split_ifs with h1 h2 h3 h4 h5 h6 <;>
    constructor <;>
    first
      | (intro hL
         first
           | exact ⟨le_antisymm (not_lt.mp h2) (not_lt.mp h1), by omega, by omega⟩
           | exact absurd hL (by decide))
      | (rintro ⟨e1, e2, e3⟩ <;> first | rfl | linarith | omega)

lemma cmp_event_start_neg_iff (a b : event_t) :
    cmp_event_start a b = -1 ↔ ganttKeyLt a b := by
  unfold cmp_event_start ganttKeyLt
  split_ifs with h1 h2 ht1 ht2 h3 h4 h5 h6 <;>
    constructor <;>
    first
      | (intro hL
         first
           | exact Or.inl h1
           | exact Or.inr ⟨le_antisymm (not_lt.mp h2) (not_lt.mp h1), Or.inl ht1⟩
           | exact Or.inr ⟨le_antisymm (not_lt.mp h2) (not_lt.mp h1),
               Or.inr ⟨by omega, Or.inl h3⟩⟩
           | exact Or.inr ⟨le_antisymm (not_lt.mp h2) (not_lt.mp h1),
               Or.inr ⟨by omega, Or.inr ⟨by omega, h5⟩⟩⟩
           | exact absurd hL (by decide))
      | (rintro (hs | ⟨hseq, htd | ⟨htde, hi | ⟨hieq, hst⟩⟩⟩) <;>
           first | rfl | linarith | omega)

lemma cmp_event_start_pos_iff (a b : event_t) :
    cmp_event_start a b = 1 ↔ ganttKeyLt b a := by
  unfold cmp_event_start ganttKeyLt
  split_ifs with h1 h2 ht1 ht2 h3 h4 h5 h6 <;>
    constructor <;>
    first
      | (intro hL
         first
           | exact Or.inl h2
           | exact Or.inr ⟨le_antisymm (not_lt.mp h1) (not_lt.mp h2), Or.inl ht2⟩
           | exact Or.inr ⟨le_antisymm (not_lt.mp h1) (not_lt.mp h2),
               Or.inr ⟨by omega, Or.inl h4⟩⟩
           | exact Or.inr ⟨le_antisymm (not_lt.mp h1) (not_lt.mp h2),
               Or.inr ⟨by omega, Or.inr ⟨by omega, h6⟩⟩⟩
           | exact absurd hL (by decide))
      | (rintro (hs | ⟨hseq, htd | ⟨htde, hi | ⟨hieq, hst⟩⟩⟩) <;>
           first | rfl | linarith | omega)

lemma cmp_event_start_zero_iff (a b : event_t) :
    cmp_event_start a b = 0 ↔
      a.t_start = b.t_start ∧ a.tid = b.tid ∧ a.item = b.item ∧
        stage_index a.stage = stage_index b.stage := by
  unfold cmp_event_start
  split_ifs with h1 h2 ht1 ht2 h3 h4 h5 h6 <;>
    constructor <;>
    first
      | (intro hL
         first
           | exact ⟨le_antisymm (not_lt.mp h2) (not_lt.mp h1), by omega, by omega,
               by omega⟩
           | exact absurd hL (by decide))
      | (rintro ⟨e1, e2, e3, e4⟩ <;> first | rfl | linarith | omega)

/-- The whitespace characters skipped by `strtol` (C `isspace` in the
default locale). -/
def isSpaceC (c : Char) : Bool :=
  c = ' ' ∨ c = '\t' ∨ c = '\n' ∨ c = Char.ofNat 11 ∨ c = Char.ofNat 12 ∨ c = '\r'

def isDigitC (c : Char) : Bool :=
  '0' ≤ c ∧ c ≤ '9'

def long_max : ℤ := 2 ^ 63 - 1
def long_min : ℤ := -(2 ^ 63)
def int_max : ℤ := 2 ^ 31 - 1

/-- Result of the `strtol(nptr, &end, 10)` call: the returned `long`,
whether `errno` was set to `ERANGE`, the suffix `end` points at, and
whether `end == nptr` (no digits were consumed). -/
structure strtol_result where
  value : ℤ
  erange : Bool
  rest : List Char
  endAtStart : Bool
deriving DecidableEq, Repr

def digitsToNat (ds : List Char) : ℕ :=
  ds.foldl (fun acc c => 10 * acc + (c.toNat - 48)) 0

/-- `strtol` in base 10: skip whitespace, take an optional sign, consume
digits; clamp to `[LONG_MIN, LONG_MAX]` setting `ERANGE` on overflow; with
no digits, return 0 and leave `end` at the start of the string. -/
def strtol10 (s : List Char) : strtol_result :=
  let s1 := s.dropWhile isSpaceC
  let signAndBody : ℤ × List Char :=
    match s1 with
    | '-' :: t => (-1, t)
    | '+' :: t => (1, t)
    | _ => (1, s1)
  let ds := signAndBody.2.takeWhile isDigitC
  let tail := signAndBody.2.dropWhile isDigitC
  if ds = [] then
    { value := 0, erange := false, rest := s, endAtStart := true }
  else
    let raw : ℤ := signAndBody.1 * (digitsToNat ds : ℤ)
    if raw > long_max then
      { value := long_max, erange := true, rest := tail, endAtStart := false }
    else if raw < long_min then
      { value := long_min, erange := true, rest := tail, endAtStart := false }
    else
      { value := raw, erange := false, rest := tail, endAtStart := false }

/-- The C cast `(int)v` applied to a `long`: reduction modulo `2^32` into
`[-2^31, 2^31)`, the conversion every mainstream ABI performs. -/
def cast_to_int (v : ℤ) : ℤ :=
  (v + 2 ^ 31).emod (2 ^ 32) - 2 ^ 31

/-- `parse_int_or_default` from the pipeline sources: return the default
when the argument is absent; reject (exit 1 with a diagnostic and usage
line on stderr) when `errno != 0`, no digits were consumed, or a non-digit
suffix remains; otherwise return `(int)v`. -/
def parse_int_or_default (argv : List String) (index : ℕ) (dflt : ℤ) :
    Except (List String) ℤ :=
  if argv.length ≤ index then .ok dflt
  else
    let arg := argv.getD index ""
    let r := strtol10 arg.data
    if r.erange ∨ r.endAtStart ∨ r.rest ≠ [] then
      .error ["Invalid integer value at argv[" ++ toString index ++ "]: " ++ arg,
              "Usage"]
    else
      .ok (cast_to_int r.value)

/-- The argument-handling phase of `main` in `omp_tasks_pipeline_gantt.c`:
parse `items`, `width`, `print_events` (defaults 8, 80, 0) and apply the
three range checks, each failure going to stderr with exit code 1. -/
def gantt_main_args (argv : List String) : Except (List String) (ℤ × ℤ × ℤ) := do
  let items ← parse_int_or_default argv 1 8
  let width ← parse_int_or_default argv 2 80
  let pe ← parse_int_or_default argv 3 0
  if items ≤ 0 then .error ["items must be > 0"]
  else if width < 40 then .error ["width must be >= 40 for readable output"]
  else if pe ≠ 0 ∧ pe ≠ 1 then .error ["print_events must be 0 or 1"]
  else .ok (items, width, pe)

/-- The argument-handling phase of `main` in `omp_tasks_pipeline_overlap.c`:
parse `items` and `verbosity` (defaults 8, 1) and apply the two range
checks. -/
def overlap_main_args (argv : List String) : Except (List String) (ℤ × ℤ) := do
  let items ← parse_int_or_default argv 1 8
  let verbosity ← parse_int_or_default argv 2 1
  if items ≤ 0 then .error ["items must be > 0"]
  else if verbosity ≠ 0 ∧ verbosity ≠ 1 then .error ["verbosity must be 0 or 1"]
  else .ok (items, verbosity)

/-- The three pipeline stages, tagged as in the sources by the characters
`'A'` (produce), `'B'` (transform), `'C'` (consume). -/
inductive Stage where
  | produce
  | transform
  | consume
deriving DecidableEq, Repr

/-- The offset the task bodies hard-code into `idx = 3 * i + {0,1,2}`. -/
def stageOffset : Stage → ℤ
  | .produce => 0
  | .transform => 1
  | .consume => 2

/-- `const int total_events = 3 * items;` -/
def total_events (items : ℤ) : ℤ := 3 * items

/-- The event-log slot written by stage `st` of item `i`. -/
def taskIdx (i : ℤ) (st : Stage) : ℤ := 3 * i + stageOffset st

/-- One task of the submitted graph: a stage bound to one item. -/
structure PTask (k : ℕ) where
  i : Fin k
  st : Stage
deriving DecidableEq

/-- Dependency addresses available to the `depend` clauses: the cells of
`token_a` and `token_b`. -/
inductive Addr (k : ℕ) where
  | tokenA (i : Fin k)
  | tokenB (i : Fin k)
deriving DecidableEq

/-- The `depend(in: ...)` address list of each task, as written in both
pipeline sources. -/
def taskIns {k : ℕ} : PTask k → List (Addr k)
  | ⟨i, .produce⟩ => []
  | ⟨i, .transform⟩ => [.tokenA i]
  | ⟨i, .consume⟩ => [.tokenB i]

/-- The `depend(out: ...)` address list of each task. -/
def taskOuts {k : ℕ} : PTask k → List (Addr k)
  | ⟨i, .produce⟩ => [.tokenA i]
  | ⟨i, .transform⟩ => [.tokenB i]
  | ⟨i, .consume⟩ => []

/-- Submission order of the single generating loop: items in increasing
order, `A`, `B`, `C` within each item. -/
def submitOrder {k : ℕ} (t : PTask k) : ℤ := taskIdx t.i t.st

/-- OpenMP `depend` semantics: a later-submitted task depends on an earlier
one iff some address is written by one of them and accessed by the other
(flow, anti or output dependence). -/
def dependsOn {k : ℕ} (t2 t1 : PTask k) : Prop :=
  submitOrder t1 < submitOrder t2 ∧
    ∃ a : Addr k,
      (a ∈ taskOuts t1 ∧ (a ∈ taskIns t2 ∨ a ∈ taskOuts t2)) ∨
        (a ∈ taskIns t1 ∧ a ∈ taskOuts t2)

/-- A trace records a start and an end offset for every stage of every
item (`(ev i st).1` is the start, `(ev i st).2` the end). -/
def PTrace (k : ℕ) := Fin k → Stage → ℚ × ℚ

/-- The contract the OpenMP runtime honours: a task may start only after
every task it depends on has ended. -/
def ValidTrace {k : ℕ} (ev : PTrace k) : Prop :=
  ∀ t2 t1 : PTask k, dependsOn t2 t1 → (ev t1.i t1.st).2 ≤ (ev t2.i t2.st).1

/-- The dependence relation generated by the `depend` clauses is exactly
the per-item two-edge chain `A → B → C`. -/
lemma dependsOn_iff {k : ℕ} (t2 t1 : PTask k) :
    dependsOn t2 t1 ↔
      t1.i = t2.i ∧
        ((t1.st = .produce ∧ t2.st = .transform) ∨
          (t1.st = .transform ∧ t2.st = .consume)) := by
  obtain ⟨i1, s1⟩ := t1
  obtain ⟨i2, s2⟩ := t2
  unfold dependsOn submitOrder
  constructor
  · rintro ⟨horder, a, hconf⟩
    simp only [taskIdx] at horder
    cases a <;> cases s1 <;> cases s2 <;>
      simp [taskIns, taskOuts, stageOffset, Fin.ext_iff] at hconf horder ⊢ <;>
      omega
  · rintro ⟨hi, ⟨hs1, hs2⟩ | ⟨hs1, hs2⟩⟩ <;>
      subst hi <;> subst hs1 <;> subst hs2
    · refine ⟨by simp only [taskIdx, stageOffset]; omega, ?_⟩
      exact ⟨.tokenA i1, Or.inl ⟨by simp [taskOuts], Or.inl (by simp [taskIns])⟩⟩
    · refine ⟨by simp only [taskIdx, stageOffset]; omega, ?_⟩
      exact ⟨.tokenB i1, Or.inl ⟨by simp [taskOuts], Or.inl (by simp [taskIns])⟩⟩

/-- Observable outcome of one `main` run, for the phases the claims are
about: exit code, stderr lines, whether any stage task ever ran, whether
the event log was (and stayed) allocated, and heap blocks still allocated
when the process exits through an error path. -/
structure RunResult where
  exitCode : ℤ
  stderrLines : List String
  stagesRan : Bool
  eventLogCreated : Bool
  leaked : List String
deriving DecidableEq, Repr

/-- The `main` of `omp_tasks_pipeline_gantt.c`, up to and including the
pipeline run, as a function of `argv` and an allocation oracle (`oracle 0`,
`1`, `2`: whether the `token_a`, `token_b` and `events` `calloc` calls
succeed; later allocations, made only after all stage tasks completed and
freed on every path, are not modelled). The token check `token_a == NULL
|| token_b == NULL` returns 1 without freeing the sibling allocation; the
event-log check frees both token arrays first. -/
def gantt_run (argv : List String) (oracle : ℕ → Bool) : RunResult :=
  match gantt_main_args argv with
  | .error msgs =>
      { exitCode := 1, stderrLines := msgs, stagesRan := false,
        eventLogCreated := false, leaked := [] }
  | .ok _ =>
      let okA := oracle 0
      let okB := oracle 1
      if ¬okA ∨ ¬okB then
        { exitCode := 1, stderrLines := ["Allocation failure for dependency tokens."],
          stagesRan := false, eventLogCreated := false,
          leaked := (if okA then ["token_a"] else []) ++ (if okB then ["token_b"] else []) }
      else if ¬oracle 2 then
        { exitCode := 1, stderrLines := ["Allocation failure for event log."],
          stagesRan := false, eventLogCreated := false, leaked := [] }
      else
        { exitCode := 0, stderrLines := [], stagesRan := true,
          eventLogCreated := true, leaked := [] }

/-- The corresponding phases of `main` in `omp_tasks_pipeline_overlap.c`
(identical allocation structure; nothing is allocated after the pipeline). -/
def overlap_run (argv : List String) (oracle : ℕ → Bool) : RunResult :=
  match overlap_main_args argv with
  | .error msgs =>
      { exitCode := 1, stderrLines := msgs, stagesRan := false,
        eventLogCreated := false, leaked := [] }
  | .ok _ =>
      let okA := oracle 0
      let okB := oracle 1
      if ¬okA ∨ ¬okB then
        { exitCode := 1, stderrLines := ["Allocation failure for dependency tokens."],
          stagesRan := false, eventLogCreated := false,
          leaked := (if okA then ["token_a"] else []) ++ (if okB then ["token_b"] else []) }
      else if ¬oracle 2 then
        { exitCode := 1, stderrLines := ["Allocation failure for event log."],
          stagesRan := false, eventLogCreated := false, leaked := [] }
      else
        { exitCode := 0, stderrLines := [], stagesRan := true,
          eventLogCreated := true, leaked := [] }

/-- Claim C4: for every time value `t` and every `width ≥ 1`, if
`total ≤ 0` then `time_to_col` returns 0 (taking the early branch, before
any division); and for every `total` the returned column lies within
`[0, width-1]`. -/
theorem c4_gantt_column_safety :
    (∀ (t total : ℚ) (width : ℤ), total ≤ 0 → time_to_col t total width = 0) ∧
    (∀ (t total : ℚ) (width : ℤ), 1 ≤ width →
      0 ≤ time_to_col t total width ∧ time_to_col t total width ≤ width - 1) := by
  constructor
  · intro t total width h
    exact time_to_col_of_nonpos t total width h
  · intro t total width hw
    exact time_to_col_bounds t total width hw

/-- Witness for C4 at `t = 5, total = 0, width = 80` and
`t = 3, total = 7, width = 80`. -/
theorem c4_gantt_column_safety_witness :
    time_to_col 5 0 80 = 0 ∧
    (0 ≤ time_to_col 3 7 80 ∧ time_to_col 3 7 80 ≤ 80 - 1) :=
  ⟨c4_gantt_column_safety.1 5 0 80 (by norm_num),
   c4_gantt_column_safety.2 3 7 80 (by norm_num)⟩

/-- Claim C9: for fixed `total > 0` and `width ≥ 1`, `time_to_col` is
monotone non-decreasing in `t`; hence for any event with
`t_end ≥ t_start` the end column is not below the start column and the
defensive swap branch of `draw_event` is not taken. -/
theorem c9_time_to_col_monotone_no_swap :
    (∀ (total : ℚ) (width : ℤ) (t t' : ℚ), 0 < total → 1 ≤ width → t ≤ t' →
      time_to_col t total width ≤ time_to_col t' total width) ∧
    (∀ (e : event_t) (total : ℚ) (width : ℤ), 1 ≤ width →
      e.t_start ≤ e.t_end →
      ¬(draw_c1 e total width < draw_c0 e total width) ∧
      draw_lo e total width = draw_c0 e total width ∧
      draw_hi e total width = draw_c1 e total width) := by
  constructor
  · intro total width t t' htot hw ht
    exact time_to_col_mono total width t t' htot hw ht
  · intro e total width hw hte
    have hle : draw_c0 e total width ≤ draw_c1 e total width := by
      unfold draw_c0 draw_c1
      rcases le_or_lt total 0 with h | h
      · rw [time_to_col_of_nonpos _ _ _ h, time_to_col_of_nonpos _ _ _ h]
      · exact time_to_col_mono total width _ _ h hw hte
    refine ⟨not_lt.mpr hle, ?_, ?_⟩
    · unfold draw_lo
      rw [if_neg (not_lt.mpr hle)]
    · unfold draw_hi
      rw [if_neg (not_lt.mpr hle)]

/-- Witness for C9 at `total = 2, width = 40, t = 1 ≤ t' = 2` and the
event `{item 0, stage A, tid 0, t_start 0, t_end 1}`. -/
theorem c9_time_to_col_monotone_no_swap_witness :
    time_to_col 1 2 40 ≤ time_to_col 2 2 40 ∧
    (¬(draw_c1 ⟨0, 'A', 0, 0, 1⟩ 2 40 < draw_c0 ⟨0, 'A', 0, 0, 1⟩ 2 40) ∧
      draw_lo ⟨0, 'A', 0, 0, 1⟩ 2 40 = draw_c0 ⟨0, 'A', 0, 0, 1⟩ 2 40 ∧
      draw_hi ⟨0, 'A', 0, 0, 1⟩ 2 40 = draw_c1 ⟨0, 'A', 0, 0, 1⟩ 2 40) :=
  ⟨c9_time_to_col_monotone_no_swap.1 2 40 1 2 (by norm_num) (by norm_num) (by norm_num),
   c9_time_to_col_monotone_no_swap.2 ⟨0, 'A', 0, 0, 1⟩ 2 40 (by norm_num) (by norm_num)⟩

/-- Claim C8: `draw_event` swaps the two columns when the end column
precedes the start column, so the painted range is always
`[min(c0,c1), max(c0,c1)]`, and no store of `draw_event` falls outside the
row's `width` characters. -/
theorem c8_swap_and_in_bounds :
    ∀ (e : event_t) (total : ℚ) (width : ℤ), 1 ≤ width →
      draw_lo e total width = min (draw_c0 e total width) (draw_c1 e total width) ∧
      draw_hi e total width = max (draw_c0 e total width) (draw_c1 e total width) ∧
      (∀ c : ℤ, c ∈ paint_cols e total width ↔
        draw_lo e total width ≤ c ∧ c ≤ draw_hi e total width) ∧
      (∀ p ∈ draw_writes e total width, 0 ≤ p.1 ∧ p.1 < width) := by
  intro e total width hw
  have hb := draw_bounds e total width hw
  refine ⟨draw_lo_eq_min e total width, draw_hi_eq_max e total width,
    fun c => paint_cols_mem e total width hw c, ?_⟩
  intro p hp
  rcases List.mem_append.mp hp with hpnt | hann
  · rcases List.mem_map.mp hpnt with ⟨c, hc, rfl⟩
    have := (paint_cols_mem e total width hw c).mp hc
    simpa using ⟨by omega, by omega⟩
  · rcases (em (draw_lo e total width = draw_hi e total width)) with heq | hne
    · rw [if_pos heq] at hann
      simp at hann
    · rw [if_neg hne] at hann
      unfold annot_writes at hann
      rcases (em (draw_lo e total width + 2 < width)) with hg | hg
      · rw [if_pos hg] at hann
        rcases (em (0 ≤ e.item ∧ e.item ≤ 99)) with hr | hr
        · rw [if_pos hr] at hann
          rcases List.mem_cons.mp hann with rfl | hd
          · constructor <;> simp <;> omega
          · unfold digit_writes at hd
            rcases (em (10 ≤ e.item)) with h10 | h10
            · rw [if_pos h10] at hd
              rcases List.mem_cons.mp hd with rfl | hd2
              · constructor <;> simp <;> omega
              · rcases List.mem_singleton.mp hd2 with rfl
                constructor <;> simp <;> omega
            · rw [if_neg h10] at hd
              rcases List.mem_singleton.mp hd with rfl
              constructor <;> simp <;> omega
        · rw [if_neg hr] at hann
          simp at hann
      · rw [if_neg hg] at hann
        simp at hann

/-- Witness for C8 at the event `{item 0, stage A, tid 0, start 1, end 0}`
(whose raw end column precedes its start column), `total = 1`,
`width = 40`. -/
theorem c8_swap_and_in_bounds_witness :
    draw_lo ⟨0, 'A', 0, 1, 0⟩ 1 40 =
      min (draw_c0 ⟨0, 'A', 0, 1, 0⟩ 1 40) (draw_c1 ⟨0, 'A', 0, 1, 0⟩ 1 40) ∧
    draw_hi ⟨0, 'A', 0, 1, 0⟩ 1 40 =
      max (draw_c0 ⟨0, 'A', 0, 1, 0⟩ 1 40) (draw_c1 ⟨0, 'A', 0, 1, 0⟩ 1 40) ∧
    (∀ c : ℤ, c ∈ paint_cols ⟨0, 'A', 0, 1, 0⟩ 1 40 ↔
      draw_lo ⟨0, 'A', 0, 1, 0⟩ 1 40 ≤ c ∧ c ≤ draw_hi ⟨0, 'A', 0, 1, 0⟩ 1 40) ∧
    (∀ p ∈ draw_writes ⟨0, 'A', 0, 1, 0⟩ 1 40, 0 ≤ p.1 ∧ p.1 < 40) :=
  c8_swap_and_in_bounds ⟨0, 'A', 0, 1, 0⟩ 1 40 (by norm_num)

/-- Claim C7: when the item id is outside `[0, 99]`, `draw_event` paints
only the stage character (no digit annotation, never an error); for ids in
`[0, 99]`, when the event spans more than one column and
`start column + 2 < width`, the stage character stays at the start column
and the 1-2 digit item id is overlaid in the following column(s). -/
theorem c7_item_id_overlay :
    (∀ (e : event_t) (total : ℚ) (width : ℤ), (e.item < 0 ∨ 99 < e.item) →
      ∀ p ∈ draw_writes e total width, p.2 = e.stage) ∧
    (∀ (e : event_t) (total : ℚ) (width : ℤ),
      0 ≤ e.item → e.item ≤ 99 →
      draw_lo e total width ≠ draw_hi e total width →
      draw_lo e total width + 2 < width →
      (draw_lo e total width, e.stage) ∈ draw_writes e total width ∧
      (10 ≤ e.item →
        (draw_lo e total width + 1, Char.ofNat (48 + (e.item / 10).toNat)) ∈
            draw_writes e total width ∧
        (draw_lo e total width + 2, Char.ofNat (48 + (e.item % 10).toNat)) ∈
            draw_writes e total width) ∧
      (e.item < 10 →
        (draw_lo e total width + 1, Char.ofNat (48 + e.item.toNat)) ∈
            draw_writes e total width)) := by
  constructor
  · intro e total width hout p hp
    rcases List.mem_append.mp hp with hpnt | hann
    · rcases List.mem_map.mp hpnt with ⟨c, _, rfl⟩
      rfl
    · rcases (em (draw_lo e total width = draw_hi e total width)) with heq | hne
      · rw [if_pos heq] at hann
        simp at hann
      · rw [if_neg hne] at hann
        unfold annot_writes at hann
        rcases (em (draw_lo e total width + 2 < width)) with hg | hg
        · rw [if_pos hg] at hann
          rw [if_neg (by omega)] at hann
          simp at hann
        · rw [if_neg hg] at hann
          simp at hann
  · intro e total width h0 h99 hne hg
    have hann : (if draw_lo e total width = draw_hi e total width then []
        else annot_writes e (draw_lo e total width) width) =
        (draw_lo e total width, e.stage) :: digit_writes (draw_lo e total width) e.item := by
      rw [if_neg hne]
      unfold annot_writes
      rw [if_pos hg, if_pos ⟨h0, h99⟩]
    refine ⟨?_, ?_, ?_⟩
    · apply List.mem_append_right
      rw [hann]
      exact List.mem_cons_self _ _
    · intro h10
      have hd : digit_writes (draw_lo e total width) e.item =
          [(draw_lo e total width + 1, Char.ofNat (48 + (e.item / 10).toNat)),
           (draw_lo e total width + 2, Char.ofNat (48 + (e.item % 10).toNat))] := by
        unfold digit_writes
        rw [if_pos h10]
      constructor <;>
        · apply List.mem_append_right
          rw [hann, hd]
          simp
    · intro hlt
      have hd : digit_writes (draw_lo e total width) e.item =
          [(draw_lo e total width + 1, Char.ofNat (48 + e.item.toNat))] := by
        unfold digit_writes
        rw [if_neg (by omega)]
      apply List.mem_append_right
      rw [hann, hd]
      simp

/-- Witness for C7: an out-of-range id (`item = 100`) yields only stage
characters, and `item = 12` on a wide row is annotated with digits `1`
and `2` after the stage character. -/
theorem c7_item_id_overlay_witness :
    (∀ p ∈ draw_writes ⟨100, 'A', 0, 0, 1⟩ 1 40, p.2 = 'A') ∧
    ((draw_lo ⟨12, 'B', 0, 0, 1⟩ 1 40, 'B') ∈ draw_writes ⟨12, 'B', 0, 0, 1⟩ 1 40 ∧
      (10 ≤ (12 : ℤ) →
        (draw_lo ⟨12, 'B', 0, 0, 1⟩ 1 40 + 1, Char.ofNat (48 + ((12 : ℤ) / 10).toNat)) ∈
            draw_writes ⟨12, 'B', 0, 0, 1⟩ 1 40 ∧
        (draw_lo ⟨12, 'B', 0, 0, 1⟩ 1 40 + 2, Char.ofNat (48 + ((12 : ℤ) % 10).toNat)) ∈
            draw_writes ⟨12, 'B', 0, 0, 1⟩ 1 40) ∧
      ((12 : ℤ) < 10 →
        (draw_lo ⟨12, 'B', 0, 0, 1⟩ 1 40 + 1, Char.ofNat (48 + (12 : ℤ).toNat)) ∈
            draw_writes ⟨12, 'B', 0, 0, 1⟩ 1 40)) :=
  by
  have h0 : time_to_col 0 1 40 = 0 := by norm_num [time_to_col, ctrunc]
  have h1 : time_to_col 1 1 40 = 39 := by norm_num [time_to_col, ctrunc]
  have hlo : draw_lo ⟨12, 'B', 0, 0, 1⟩ 1 40 = 0 := by
    unfold draw_lo draw_c0 draw_c1
    simp [h0, h1]
  have hhi : draw_hi ⟨12, 'B', 0, 0, 1⟩ 1 40 = 39 := by
    unfold draw_hi draw_c0 draw_c1
    simp [h0, h1]
  exact ⟨c7_item_id_overlay.1 ⟨100, 'A', 0, 0, 1⟩ 1 40 (Or.inr (by norm_num)),
    c7_item_id_overlay.2 ⟨12, 'B', 0, 0, 1⟩ 1 40 (by norm_num) (by norm_num)
      (by rw [hlo, hhi]; decide) (by rw [hlo]; decide)⟩

/-- Counterexample to claim C3: with equal start times, the event
`{item 0, tid 5}` precedes `{item 1, tid 2}` under the claimed key
`(startOffset, item, stageIndex)`, yet the gantt variant's comparator
`cmp_event_start` orders it *after* (it compares `tid` before `item`),
so the gantt event list is not sorted by the claimed key. -/
theorem c3_counterexample_gantt_tid_before_item :
    specKeyLt ⟨0, 'A', 5, 0, 1⟩ ⟨1, 'A', 2, 0, 1⟩ ∧
    cmp_event_start ⟨0, 'A', 5, 0, 1⟩ ⟨1, 'A', 2, 0, 1⟩ = 1 ∧
    cmp_event ⟨0, 'A', 5, 0, 1⟩ ⟨1, 'A', 2, 0, 1⟩ = -1 := by
  refine ⟨Or.inr ⟨rfl, Or.inl (by norm_num)⟩, ?_, ?_⟩
  · unfold cmp_event_start
    norm_num
  · unfold cmp_event
    norm_num

/-- Claim C3 as amended: the overlap variant's comparator orders events
ascending by `(startOffset, item, stageIndex)` exactly, while the gantt
variant's comparator orders them ascending by
`(startOffset, tid, item, stageIndex)` — thread id before item id; both
are deterministic three-way comparisons of their key, so sorting a fixed
log is deterministic, but the two variants use different keys. -/
theorem c3_amended_comparator_keys :
    (∀ a b : event_t,
      (cmp_event a b = -1 ↔ specKeyLt a b) ∧
      (cmp_event a b = 1 ↔ specKeyLt b a) ∧
      (cmp_event a b = 0 ↔
        (a.t_start = b.t_start ∧ a.item = b.item ∧
          stage_index a.stage = stage_index b.stage))) ∧
    (∀ a b : event_t,
      (cmp_event_start a b = -1 ↔ ganttKeyLt a b) ∧
      (cmp_event_start a b = 1 ↔ ganttKeyLt b a) ∧
      (cmp_event_start a b = 0 ↔
        (a.t_start = b.t_start ∧ a.tid = b.tid ∧ a.item = b.item ∧
          stage_index a.stage = stage_index b.stage))) :=
  ⟨fun a b => ⟨cmp_event_neg_iff a b, cmp_event_pos_iff a b, cmp_event_zero_iff a b⟩,
   fun a b => ⟨cmp_event_start_neg_iff a b, cmp_event_start_pos_iff a b,
     cmp_event_start_zero_iff a b⟩⟩

/-- Claim C10: `parse_int_or_default` validates only as a C `long`; the
fully numeric argument `"4294967304"` (`2^32 + 8`) parses with no error
and full consumption, fits in `long` but not in `int`, and the cast
`(int)v` silently truncates it to 8 — which then passes the `items > 0`
range check as if 8 had been given. -/
theorem c10_long_truncation :
    (strtol10 "4294967304".data).value = 2 ^ 32 + 8 ∧
    (strtol10 "4294967304".data).erange = false ∧
    (strtol10 "4294967304".data).rest = [] ∧
    2 ^ 32 + 8 ≤ long_max ∧
    int_max < 2 ^ 32 + 8 ∧
    cast_to_int (2 ^ 32 + 8) = 8 ∧
    parse_int_or_default ["prog", "4294967304"] 1 8 = .ok 8 ∧
    gantt_main_args ["prog", "4294967304"] = .ok (8, 80, 0) := by
  refine ⟨?_, ?_, ?_, ?_, ?_, ?_, ?_, ?_⟩ <;> first | decide | rfl

lemma gantt_main_args_ok_ranges (argv : List String) (items width pe : ℤ)
    (h : gantt_main_args argv = .ok (items, width, pe)) :
    0 < items ∧ 40 ≤ width ∧ (pe = 0 ∨ pe = 1) := by
  unfold gantt_main_args at h
  cases h1 : parse_int_or_default argv 1 8 with
  | error m => rw [h1] at h; simp [Bind.bind, Except.bind] at h
  | ok i =>
    rw [h1] at h
    cases h2 : parse_int_or_default argv 2 80 with
    | error m => rw [h2] at h; simp [Bind.bind, Except.bind] at h
    | ok w =>
      rw [h2] at h
      cases h3 : parse_int_or_default argv 3 0 with
      | error m => rw [h3] at h; simp [Bind.bind, Except.bind] at h
      | ok p =>
        rw [h3] at h
        simp only [Bind.bind, Except.bind] at h
        split_ifs at h with hi hw hp
        simp only [Except.ok.injEq, Prod.mk.injEq] at h
        obtain ⟨rfl, rfl, rfl⟩ := h
        exact ⟨by omega, by omega, by tauto⟩

lemma overlap_main_args_ok_ranges (argv : List String) (items verbosity : ℤ)
    (h : overlap_main_args argv = .ok (items, verbosity)) :
    0 < items ∧ (verbosity = 0 ∨ verbosity = 1) := by
  unfold overlap_main_args at h
  cases h1 : parse_int_or_default argv 1 8 with
  | error m => rw [h1] at h; simp [Bind.bind, Except.bind] at h
  | ok i =>
    rw [h1] at h
    cases h2 : parse_int_or_default argv 2 1 with
    | error m => rw [h2] at h; simp [Bind.bind, Except.bind] at h
    | ok v =>
      rw [h2] at h
      simp only [Bind.bind, Except.bind] at h
      split_ifs at h with hi hv
      simp only [Except.ok.injEq, Prod.mk.injEq] at h
      obtain ⟨rfl, rfl⟩ := h
      exact ⟨by omega, by tauto⟩

/-- Claim C5: invalid CLI input is rejected before any pipeline work with
exit code 1, a diagnostic (and usage text for malformed arguments) on
stderr and no event log; validated runs whose allocations succeed exit 0.
The concrete conjuncts exercise each rejection class: non-numeric
argument, `items ≤ 0`, `width < 40` (gantt), `print_events`/`verbosity`
outside `{0, 1}`. -/
theorem c5_argument_validation :
    (∀ (argv : List String) (oracle : ℕ → Bool) (msgs : List String),
      gantt_main_args argv = .error msgs →
      gantt_run argv oracle =
        { exitCode := 1, stderrLines := msgs, stagesRan := false,
          eventLogCreated := false, leaked := [] }) ∧
    (∀ (argv : List String) (oracle : ℕ → Bool),
      (∀ n, oracle n = true) → ∀ v, gantt_main_args argv = .ok v →
      (gantt_run argv oracle).exitCode = 0) ∧
    (∀ (argv : List String) (items width pe : ℤ),
      gantt_main_args argv = .ok (items, width, pe) →
      0 < items ∧ 40 ≤ width ∧ (pe = 0 ∨ pe = 1)) ∧
    (∀ (argv : List String) (items verbosity : ℤ),
      overlap_main_args argv = .ok (items, verbosity) →
      0 < items ∧ (verbosity = 0 ∨ verbosity = 1)) ∧
    gantt_main_args ["prog", "abc"] =
      .error ["Invalid integer value at argv[1]: abc", "Usage"] ∧
    gantt_main_args ["prog", "0"] = .error ["items must be > 0"] ∧
    gantt_main_args ["prog", "-3"] = .error ["items must be > 0"] ∧
    gantt_main_args ["prog", "8", "10"] =
      .error ["width must be >= 40 for readable output"] ∧
    gantt_main_args ["prog", "8", "80", "2"] =
      .error ["print_events must be 0 or 1"] ∧
    overlap_main_args ["prog", "8", "2"] = .error ["verbosity must be 0 or 1"] ∧
    gantt_main_args ["prog"] = .ok (8, 80, 0) := by
  refine ⟨?_, ?_, gantt_main_args_ok_ranges, overlap_main_args_ok_ranges,
    ?_, ?_, ?_, ?_, ?_, ?_, ?_⟩
  · intro argv oracle msgs h
    unfold gantt_run
    rw [h]
  · intro argv oracle hall v h
    unfold gantt_run
    rw [h]
    simp [hall 0, hall 1, hall 2]
  all_goals first | rfl | decide

/-- Witness for C5: concrete rejected and accepted runs. -/
theorem c5_argument_validation_witness :
    gantt_run ["prog", "0"] (fun _ => true) =
      { exitCode := 1, stderrLines := ["items must be > 0"], stagesRan := false,
        eventLogCreated := false, leaked := [] } ∧
    (gantt_run ["prog"] (fun _ => true)).exitCode = 0 ∧
    (0 < (8 : ℤ) ∧ 40 ≤ (80 : ℤ) ∧ ((0 : ℤ) = 0 ∨ (0 : ℤ) = 1)) ∧
    (0 < (8 : ℤ) ∧ ((1 : ℤ) = 0 ∨ (1 : ℤ) = 1)) :=
  ⟨c5_argument_validation.1 ["prog", "0"] (fun _ => true) ["items must be > 0"] (by rfl),
   c5_argument_validation.2.1 ["prog"] (fun _ => true) (fun _ => rfl) (8, 80, 0) (by rfl),
   c5_argument_validation.2.2.1 ["prog"] 8 80 0 (by rfl),
   c5_argument_validation.2.2.2.1 ["prog"] 8 1 (by rfl)⟩

/-- Counterexample to claim C6: when `token_a`'s `calloc` succeeds and
`token_b`'s fails, both pipeline variants take the branch
`if (token_a == NULL || token_b == NULL) return 1;`, which exits without
freeing the successfully allocated `token_a` — so not every allocation
from the run is released before exit. -/
theorem c6_counterexample_token_leak :
    gantt_run ["prog"] (fun n => n == 0) =
      { exitCode := 1,
        stderrLines := ["Allocation failure for dependency tokens."],
        stagesRan := false, eventLogCreated := false,
        leaked := ["token_a"] } ∧
    overlap_run ["prog"] (fun n => n == 0) =
      { exitCode := 1,
        stderrLines := ["Allocation failure for dependency tokens."],
        stagesRan := false, eventLogCreated := false,
        leaked := ["token_a"] } ∧
    (["token_a"] : List String) ≠ [] := by
  refine ⟨?_, ?_, ?_⟩ <;> first | decide | rfl

/-- Claim C6 as amended: an allocation failure of the token arrays or the
event log is reported to stderr and the process exits 1 before any stage
task executes; on event-log allocation failure the two token arrays are
freed first, but on token-array allocation failure a token array that had
already been allocated successfully is not released. -/
theorem c6_amended_alloc_fail_fast :
    ∀ (argv : List String) (oracle : ℕ → Bool) (v : ℤ × ℤ × ℤ) (w : ℤ × ℤ),
      (gantt_main_args argv = .ok v →
        (¬(oracle 0 = true ∧ oracle 1 = true) →
          gantt_run argv oracle =
            { exitCode := 1,
              stderrLines := ["Allocation failure for dependency tokens."],
              stagesRan := false, eventLogCreated := false,
              leaked := (if oracle 0 then ["token_a"] else []) ++
                (if oracle 1 then ["token_b"] else []) }) ∧
        (oracle 0 = true → oracle 1 = true → oracle 2 = false →
          gantt_run argv oracle =
            { exitCode := 1,
              stderrLines := ["Allocation failure for event log."],
              stagesRan := false, eventLogCreated := false, leaked := [] })) ∧
      (overlap_main_args argv = .ok w →
        (¬(oracle 0 = true ∧ oracle 1 = true) →
          overlap_run argv oracle =
            { exitCode := 1,
              stderrLines := ["Allocation failure for dependency tokens."],
              stagesRan := false, eventLogCreated := false,
              leaked := (if oracle 0 then ["token_a"] else []) ++
                (if oracle 1 then ["token_b"] else []) }) ∧
        (oracle 0 = true → oracle 1 = true → oracle 2 = false →
          overlap_run argv oracle =
            { exitCode := 1,
              stderrLines := ["Allocation failure for event log."],
              stagesRan := false, eventLogCreated := false, leaked := [] })) := by
  intro argv oracle v w
  constructor
  · intro h
    constructor
    · intro hab
      unfold gantt_run
      rw [h]
      have : (¬oracle 0 = true ∨ ¬oracle 1 = true) := by tauto
      rw [if_pos this]
    · intro h0 h1 h2
      unfold gantt_run
      rw [h]
      rw [if_neg (by simp [h0, h1]), if_pos (by simp [h2])]
  · intro h
    constructor
    · intro hab
      unfold overlap_run
      rw [h]
      have : (¬oracle 0 = true ∨ ¬oracle 1 = true) := by tauto
      rw [if_pos this]
    · intro h0 h1 h2
      unfold overlap_run
      rw [h]
      rw [if_neg (by simp [h0, h1]), if_pos (by simp [h2])]

/-- Witness for C6 (amended) at `argv = ["prog"]` with only the third
allocation failing. -/
theorem c6_amended_alloc_fail_fast_witness :
    gantt_run ["prog"] (fun n => n < 2) =
      { exitCode := 1, stderrLines := ["Allocation failure for event log."],
        stagesRan := false, eventLogCreated := false, leaked := [] } ∧
    overlap_run ["prog"] (fun n => n < 2) =
      { exitCode := 1, stderrLines := ["Allocation failure for event log."],
        stagesRan := false, eventLogCreated := false, leaked := [] } :=
  ⟨((c6_amended_alloc_fail_fast ["prog"] (fun n => n < 2) (8, 80, 0) (8, 1)).1
      (by rfl)).2 rfl rfl rfl,
   ((c6_amended_alloc_fail_fast ["prog"] (fun n => n < 2) (8, 80, 0) (8, 1)).2
      (by rfl)).2 rfl rfl rfl⟩

/-- Claim C2: the log is pre-allocated with `3k` slots; the slot map
`(i, stage) ↦ 3*i + stageIndex(stage)` is injective with range inside
`[0, 3k)` and in fact surjective onto it, so the completed log holds
exactly `3k` events with exactly `k` per stage and no two stage
executions share a slot. -/
theorem c2_event_slot_mapping :
    ∀ k : ℤ, 0 < k →
      total_events k = 3 * k ∧
      (∀ (i : ℤ) (st : Stage), 0 ≤ i → i < k →
        0 ≤ taskIdx i st ∧ taskIdx i st < 3 * k) ∧
      (∀ (i i' : ℤ) (st st' : Stage),
        taskIdx i st = taskIdx i' st' → i = i' ∧ st = st') ∧
      (∀ j : ℤ, 0 ≤ j → j < 3 * k →
        ∃ (i : ℤ) (st : Stage), 0 ≤ i ∧ i < k ∧ taskIdx i st = j) ∧
      (∀ st : Stage,
        ((Finset.Icc (0 : ℤ) (k - 1)).image (fun i => taskIdx i st)).card = k.toNat) := by
  intro k hk
  refine ⟨rfl, ?_, ?_, ?_, ?_⟩
  · intro i st h0 h1
    cases st <;> simp [taskIdx, stageOffset] <;> omega
  · intro i i' st st' h
    cases st <;> cases st' <;>
      simp only [taskIdx, stageOffset] at h <;>
      first
        | exact ⟨by omega, rfl⟩
        | (exfalso; omega)
  · intro j h0 h3
    have hmod : j % 3 = 0 ∨ j % 3 = 1 ∨ j % 3 = 2 := by omega
    rcases hmod with hm | hm | hm
    · exact ⟨j / 3, .produce, by omega, by omega,
        by simp only [taskIdx, stageOffset]; omega⟩
    · exact ⟨j / 3, .transform, by omega, by omega,
        by simp only [taskIdx, stageOffset]; omega⟩
    · exact ⟨j / 3, .consume, by omega, by omega,
        by simp only [taskIdx, stageOffset]; omega⟩
  · intro st
    rw [Finset.card_image_of_injOn]
    · rw [Int.card_Icc]
      congr 1
      omega
    · intro a _ b _ hab
      simp only [taskIdx] at hab
      omega

/-- Witness for C2 at `k = 2`. -/
theorem c2_event_slot_mapping_witness :
    total_events 2 = 3 * 2 ∧
    (∀ (i : ℤ) (st : Stage), 0 ≤ i → i < 2 →
      0 ≤ taskIdx i st ∧ taskIdx i st < 3 * 2) ∧
    (∀ (i i' : ℤ) (st st' : Stage),
      taskIdx i st = taskIdx i' st' → i = i' ∧ st = st') ∧
    (∀ j : ℤ, 0 ≤ j → j < 3 * 2 →
      ∃ (i : ℤ) (st : Stage), 0 ≤ i ∧ i < 2 ∧ taskIdx i st = j) ∧
    (∀ st : Stage,
      ((Finset.Icc (0 : ℤ) (2 - 1)).image (fun i => taskIdx i st)).card = (2 : ℤ).toNat) :=
  c2_event_slot_mapping 2 (by norm_num)

/-- Claim C1: in every trace the scheduler can produce while honouring the
declared `depend` edges, each item's Produce ends no later than its
Transform starts and its Transform ends no later than its Consume starts;
and the dependence relation generated by the clauses consists solely of
the per-item edges `A→B` and `B→C` (no cross-item edge, hence no global
barrier between stages or items). -/
theorem c1_causal_order_per_item :
    ∀ (k : ℕ) (ev : PTrace k), ValidTrace ev →
      (∀ i : Fin k,
        (ev i .produce).2 ≤ (ev i .transform).1 ∧
        (ev i .transform).2 ≤ (ev i .consume).1) ∧
      (∀ t2 t1 : PTask k, dependsOn t2 t1 →
        t1.i = t2.i ∧
          ((t1.st = .produce ∧ t2.st = .transform) ∨
            (t1.st = .transform ∧ t2.st = .consume))) := by
  intro k ev hv
  constructor
  · intro i
    constructor
    · exact hv ⟨i, .transform⟩ ⟨i, .produce⟩
        ((dependsOn_iff _ _).mpr ⟨rfl, Or.inl ⟨rfl, rfl⟩⟩)
    · exact hv ⟨i, .consume⟩ ⟨i, .transform⟩
        ((dependsOn_iff _ _).mpr ⟨rfl, Or.inr ⟨rfl, rfl⟩⟩)
  · intro t2 t1 h
    exact (dependsOn_iff t2 t1).mp h

/-- The all-zero trace on one item, used to witness C1. -/
def trivialTrace : PTrace 1 := fun _ _ => (0, 0)

/-- Witness for C1 at `k = 1` with the all-zero trace. -/
theorem c1_causal_order_per_item_witness :
    ValidTrace trivialTrace ∧
    ((∀ i : Fin 1,
        (trivialTrace i .produce).2 ≤ (trivialTrace i .transform).1 ∧
        (trivialTrace i .transform).2 ≤ (trivialTrace i .consume).1) ∧
      (∀ t2 t1 : PTask 1, dependsOn t2 t1 →
        t1.i = t2.i ∧
          ((t1.st = .produce ∧ t2.st = .transform) ∨
            (t1.st = .transform ∧ t2.st = .consume)))) :=
  have hv : ValidTrace trivialTrace := fun _ _ _ => le_refl 0
  ⟨hv, c1_causal_order_per_item 1 trivialTrace hv⟩
